import Mathlib

/-!
# JupyterCluster — verification of the hub lifecycle orchestration engine

Shallow embedding of the core of `jupytercluster` (files `app.py`, `hub.py`,
`spawner.py`, `orm.py`) and proofs about the claims of the specification.

Configuration trees (Helm values, JSON request bodies) are modelled by the
inductive type `JValue`; Python dicts are association lists with unique keys
(Python dictionaries cannot hold duplicate keys; the operations below extend
them to arbitrary lists in the natural way).  JSON numbers are modelled as
integers: the sanitizer only ever inspects the *type* and the *truthiness* of
a number, never its arithmetic value.
-/

set_option autoImplicit false

namespace JupyterCluster

/-- A JSON-like configuration value as produced by `tornado`'s JSON body
parsing and consumed by the Helm values pipeline. -/
inductive JValue where
  | null
  | bool (b : Bool)
  | num (n : Int)
  | str (s : String)
  | arr (elems : List JValue)
  | obj (fields : List (String × JValue))

/-- A Python dict with string keys (e.g. a Helm values tree at some level). -/
abbrev Obj := List (String × JValue)

/-- First value stored under key `k` (Python `d[k]` / `d.get(k)`). -/
def getKey : Obj → String → Option JValue
  | [], _ => none
  | (k', v) :: rest, k => if k' = k then some v else getKey rest k

/-- Python `k in d`. -/
def containsKey (kvs : Obj) (k : String) : Bool :=
  (getKey kvs k).isSome

/-- Python `d[k] = v`: replace the value stored under `k`, or append the pair
if the key is absent. -/
def dictSet : Obj → String → JValue → Obj
  | [], k, v => [(k, v)]
  | (k', v') :: rest, k, v =>
    if k' = k then (k', v) :: rest else (k', v') :: dictSet rest k v

/-- Python `del d[k]` (removes every entry with key `k`; a Python dict has at
most one). -/
def eraseKey : Obj → String → Obj
  | [], _ => []
  | (k', v) :: rest, k =>
    if k' = k then eraseKey rest k else (k', v) :: eraseKey rest k

/-- `del d[k]` for each key of `ks` that is present. -/
def eraseKeys (kvs : Obj) (ks : List String) : Obj :=
  ks.foldl eraseKey kvs

/-- Python `d.update(s)` (dict merge, right operand wins). -/
def objUpdate (d s : Obj) : Obj :=
  s.foldl (fun acc kv => dictSet acc kv.1 kv.2) d

/-- The keys of an object. -/
def objKeys (kvs : Obj) : List String := kvs.map Prod.fst

/-- The keys are pairwise distinct — true of every object that comes out of a
Python dict. -/
def NodupKeys (kvs : Obj) : Prop := (objKeys kvs).Nodup


/-! ## Python semantics helpers -/

/-- Python truthiness of a JSON value (`if v:`). -/
def truthy : JValue → Bool
  | .null => false
  | .bool b => b
  | .num n => n != 0
  | .str s => !s.isEmpty
  | .arr xs => !xs.isEmpty
  | .obj kvs => !kvs.isEmpty

/-- Python `==` restricted to the comparisons the sanitizer performs: one
side is always a string or a scalar dict key, so container–container
comparisons never occur and are mapped to `false`.  Python's numeric/boolean
coercion (`True == 1`) is kept. -/
def pyEq : JValue → JValue → Bool
  | .null, .null => true
  | .bool a, .bool b => a == b
  | .bool a, .num n => (if a then (1 : Int) else 0) == n
  | .num n, .bool b => n == (if b then (1 : Int) else 0)
  | .num a, .num b => a == b
  | .str a, .str b => a == b
  | _, _ => false

/-- Python hashability of a JSON value (list and dict are unhashable). -/
def pyHashable : JValue → Bool
  | .arr _ => false
  | .obj _ => false
  | _ => true

/-- Python iteration `for x in v`: lists yield their elements, strings yield
their characters, dicts yield their keys; every other type raises
`TypeError`. -/
def pyIter : JValue → Except String (List JValue)
  | .arr xs => .ok xs
  | .str s => .ok (s.data.map (fun c => .str (String.mk [c])))
  | .obj kvs => .ok (kvs.map (fun kv => .str kv.1))
  | _ => .error "TypeError: object is not iterable"

/-! ## Cluster state and live-resource checks

`_validate_helm_values` consults live cluster state via
`_check_storage_class_exists` and `_check_node_labels_exist`
(`spawner.py:128-172`).  The cluster is modelled by the storage classes it
holds and the label map of each node. -/

/-- Observable cluster state used by the sanitizer's resource-existence
checks. -/
structure ClusterState where
  storageClasses : List String
  nodes : List (List (String × String))

/-- First value stored under `k` in a string-valued label map. -/
def strGetKey : List (String × String) → String → Option String
  | [], _ => none
  | (k', v) :: rest, k => if k' = k then some v else strGetKey rest k

/-- `spawner.py:128-138` `_check_storage_class_exists`: true iff some storage
class name equals the given value (the value can be any JSON value; only a
string can compare equal to a name).  API errors are caught and mapped to
`False` in the source, so the model is total. -/
def checkStorageClassExists (cs : ClusterState) (v : JValue) : Bool :=
  cs.storageClasses.any (fun name => pyEq (.str name) v)

/-- `spawner.py:140-172` `_check_node_labels_exist` inner per-node check:
every required label key must be present on the node, with the node's label
value either a member of the required list or equal to the required value. -/
def nodeHasLabels (nodeLabels : List (String × String)) (req : List (JValue × JValue)) : Bool :=
  req.all fun kv =>
    match kv.1 with
    | .str ks =>
      match strGetKey nodeLabels ks with
      | none => false
      | some lbl =>
        match kv.2 with
        | .arr vs => vs.any (fun e => pyEq (.str lbl) e)
        | v => pyEq (.str lbl) v
    | _ => false

/-- `spawner.py:140-172` `_check_node_labels_exist`: true iff at least one
node carries all required labels.  API errors are caught and mapped to
`False` in the source, so the model is total. -/
def checkNodeLabelsExist (cs : ClusterState) (req : List (JValue × JValue)) : Bool :=
  cs.nodes.any (fun n => nodeHasLabels n req)

/-! ## ValueSanitizer — `spawner.py:174-327` `_validate_helm_values` -/

/-- `spawner.py:69-83`: whitelist of top-level Helm value keys. -/
def allowedHelmKeys : List String :=
  ["hub", "proxy", "singleuser", "auth", "rbac", "ingress", "httpRoute",
   "scheduling", "prePuller", "cull"]

/-- `spawner.py:225-229`: security-context keys stripped from `singleuser`. -/
def dangerousSecurityKeys : List String :=
  ["privileged", "allowPrivilegeEscalation", "capabilities"]

/-- `spawner.py:191-196`: keep only whitelisted top-level keys, in input
order (`sanitized[key] = values[key]`). -/
def stepAllow (values : Obj) : Obj :=
  values.foldl
    (fun acc kv => if allowedHelmKeys.contains kv.1 then dictSet acc kv.1 kv.2 else acc) []

/-- `spawner.py:198-205`: delete a top-level `namespace` key (already
excluded by the whitelist; kept to mirror the source). -/
def stepNamespace (s : Obj) : Obj :=
  if containsKey s "namespace" then eraseKey s "namespace" else s

/-- `spawner.py:207-215`: drop `clusterRoleBindings` from a dict-valued
`rbac` section. -/
def stepRbac (s : Obj) : Obj :=
  match getKey s "rbac" with
  | some (.obj rbac) =>
    if containsKey rbac "clusterRoleBindings" then
      dictSet s "rbac" (.obj (eraseKey rbac "clusterRoleBindings"))
    else s
  | _ => s

/-- `spawner.py:221-234`: strip privilege-escalation keys from a dict-valued
`singleuser.securityContext`. -/
def suSecurityContext (su : Obj) : Obj :=
  match getKey su "securityContext" with
  | some (.obj sc) => dictSet su "securityContext" (.obj (eraseKeys sc dangerousSecurityKeys))
  | _ => su

/-- `spawner.py:240-246`: an empty-dict `extraVolumes` becomes an empty
list. -/
def fixExtraVolumes (stg : Obj) : Obj :=
  match getKey stg "extraVolumes" with
  | some (.obj xs) => if xs.isEmpty then dictSet stg "extraVolumes" (.arr []) else stg
  | _ => stg

/-- `spawner.py:247-253`: an empty-dict `extraVolumeMounts` becomes an empty
list. -/
def fixExtraVolumeMounts (stg : Obj) : Obj :=
  match getKey stg "extraVolumeMounts" with
  | some (.obj xs) => if xs.isEmpty then dictSet stg "extraVolumeMounts" (.arr []) else stg
  | _ => stg

/-- `spawner.py:255-264`: a truthy `dynamic.storageClass` that does not
exist in the cluster is replaced by `"standard"`. -/
def fixDynamic (cs : ClusterState) (stg : Obj) : Obj :=
  match getKey stg "dynamic" with
  | some (.obj dyn) =>
    if truthy ((getKey dyn "storageClass").getD .null) &&
        !(checkStorageClassExists cs ((getKey dyn "storageClass").getD .null)) then
      dictSet stg "dynamic" (.obj (dictSet dyn "storageClass" (.str "standard")))
    else stg
  | _ => stg

/-- `spawner.py:240-264`: the per-value storage fix, in source order. -/
def storageValueFix (cs : ClusterState) (stg0 : Obj) : Obj :=
  fixDynamic cs (fixExtraVolumeMounts (fixExtraVolumes stg0))

/-- `spawner.py:236-264`: apply `storageValueFix` to a dict-valued
`singleuser.storage`. -/
def suStorage (cs : ClusterState) (su : Obj) : Obj :=
  match getKey su "storage" with
  | some (.obj stg0) => dictSet su "storage" (.obj (storageValueFix cs stg0))
  | _ => su

/-- `spawner.py:266-278`: inside the storage block, also fix a top-level
`db.pvc.storageClassName` against the cluster (dead code in the source:
`db` is not in the whitelist, so it can never be present in `sanitized`). -/
def dbStorageFix (cs : ClusterState) (sanitized : Obj) : Obj :=
  match getKey sanitized "db" with
  | some (.obj db) =>
    match getKey db "pvc" with
    | some (.obj pvc) =>
      if truthy ((getKey pvc "storageClassName").getD .null) &&
          !(checkStorageClassExists cs ((getKey pvc "storageClassName").getD .null)) then
        dictSet sanitized "db"
          (.obj (dictSet db "pvc" (.obj (dictSet pvc "storageClassName" (.str "standard")))))
      else sanitized
    | _ => sanitized
  | _ => sanitized

/-- `spawner.py:293-298` inner loop body: an `In`-operator match expression
with truthy `key` and `values` adds `required_labels[key] = values`;
an unhashable key (list/dict) raises `TypeError` at the dict assignment. -/
def processExpr (acc : List (JValue × JValue)) (expr : JValue) :
    Except String (List (JValue × JValue)) :=
  match expr with
  | .obj e =>
    if pyEq ((getKey e "operator").getD .null) (.str "In") then
      if truthy ((getKey e "key").getD .null) && truthy ((getKey e "values").getD (.arr [])) then
        if pyHashable ((getKey e "key").getD .null) then
          .ok (reqSet acc ((getKey e "key").getD .null) ((getKey e "values").getD (.arr [])))
        else .error "TypeError: unhashable type"
      else .ok acc
    else .ok acc
  | _ => .ok acc
where
  /-- Python dict assignment on the accumulated `required_labels` map
  (the original key object is kept on overwrite, Python-style). -/
  reqSet : List (JValue × JValue) → JValue → JValue → List (JValue × JValue)
  | [], k, v => [(k, v)]
  | (k', v') :: rest, k, v =>
    if pyEq k' k then (k', v) :: rest else (k', v') :: reqSet rest k v

/-- Iterate `for expr in match_expressions["matchExpressions"]`. -/
def processExprList (acc : List (JValue × JValue)) :
    List JValue → Except String (List (JValue × JValue))
  | [] => .ok acc
  | e :: rest =>
    match processExpr acc e with
    | .error err => .error err
    | .ok acc' => processExprList acc' rest

/-- Iterate `for match_expressions in required` (`spawner.py:288-298`):
only dict entries holding a `matchExpressions` key contribute; the inner
value is iterated Python-style (possibly raising `TypeError`). -/
def processMatchList (acc : List (JValue × JValue)) :
    List JValue → Except String (List (JValue × JValue))
  | [] => .ok acc
  | me :: rest =>
    match me with
    | .obj meObj =>
      match getKey meObj "matchExpressions" with
      | some inner =>
        match pyIter inner with
        | .error e => .error e
        | .ok exprs =>
          match processExprList acc exprs with
          | .error e => .error e
          | .ok acc' => processMatchList acc' rest
      | none => processMatchList acc rest
    | _ => processMatchList acc rest

/-- `spawner.py:284-298`: extract the `required_labels` map from the
`required` node-affinity value.  `required` itself is iterated Python-style,
so a truthy non-iterable (number or `True`) raises `TypeError`. -/
def extractRequiredLabels (required : JValue) : Except String (List (JValue × JValue)) :=
  match pyIter required with
  | .error e => .error e
  | .ok outer => processMatchList [] outer

/-- `spawner.py:280-305`: for a dict-valued `singleuser.extraNodeAffinity`
with a truthy `required` entry, extract the required labels; if some were
extracted and no node satisfies them, replace `extraNodeAffinity` by `{}`. -/
def suAffinity (cs : ClusterState) (su : Obj) : Except String Obj :=
  match getKey su "extraNodeAffinity" with
  | some (.obj ena) =>
    if truthy ((getKey ena "required").getD (.arr [])) then
      match extractRequiredLabels ((getKey ena "required").getD (.arr [])) with
      | .error e => .error e
      | .ok labels =>
        if !labels.isEmpty && !(checkNodeLabelsExist cs labels) then
          .ok (dictSet su "extraNodeAffinity" (.obj []))
        else .ok su
    else .ok su
  | _ => .ok su

/-- The value-level `singleuser` transformation: security context, storage,
node affinity, in source order. -/
def suFull (cs : ClusterState) (su : Obj) : Except String Obj :=
  suAffinity cs (suStorage cs (suSecurityContext su))

/-- `spawner.py:217-305`: the whole `singleuser` block.  The storage branch
also touches the top-level `db` section, so the top object is threaded
through; at the end the transformed `singleuser` value is stored back. -/
def sanitizeSingleuser (cs : ClusterState) (sanitized su : Obj) : Except String Obj :=
  let su1 := suSecurityContext su
  let su2 := suStorage cs su1
  let sanitized1 :=
    match getKey su1 "storage" with
    | some (.obj _) => dbStorageFix cs sanitized
    | _ => sanitized
  match suAffinity cs su2 with
  | .error e => .error e
  | .ok su3 => .ok (dictSet sanitized1 "singleuser" (.obj su3))

/-- Dispatch on the presence and dict-ness of `singleuser`. -/
def stepSingleuser (cs : ClusterState) (s : Obj) : Except String Obj :=
  match getKey s "singleuser" with
  | some (.obj su) => sanitizeSingleuser cs s su
  | _ => .ok s

/-- `spawner.py:307-314`: force `enabled = False` on a dict-valued top-level
`httpRoute` whose `enabled` entry is truthy. -/
def stepHttpRoute (s : Obj) : Obj :=
  match getKey s "httpRoute" with
  | some (.obj hr) =>
    if truthy ((getKey hr "enabled").getD (.bool false)) then
      dictSet s "httpRoute" (.obj (dictSet hr "enabled" (.bool false)))
    else s
  | _ => s

/-- `spawner.py:316-325`: the same for `hub.httpRoute`. -/
def stepHubHttpRoute (s : Obj) : Obj :=
  match getKey s "hub" with
  | some (.obj hub) =>
    match getKey hub "httpRoute" with
    | some (.obj hr) =>
      if truthy ((getKey hr "enabled").getD (.bool false)) then
        dictSet s "hub" (.obj (dictSet hub "httpRoute" (.obj (dictSet hr "enabled" (.bool false)))))
      else s
    | _ => s
  | _ => s

/-- `spawner.py:174-327` `HubSpawner._validate_helm_values`: the
ValueSanitizer.  An `Except.error` result models a Python exception escaping
the function. -/
def sanitize (cs : ClusterState) (values : Obj) : Except String Obj :=
  let s := stepAllow values
  let s := stepNamespace s
  let s := stepRbac s
  match stepSingleuser cs s with
  | .error e => .error e
  | .ok s => .ok (stepHubHttpRoute (stepHttpRoute s))

mutual

/-- Deep key search: does a `namespace` (or other) key occur at any nesting
level of the tree?  Used to state the spec's namespace-stripping property. -/
def hasKeyDeep : JValue → String → Bool
  | .obj kvs, k => hasKeyDeepFields kvs k
  | .arr xs, k => hasKeyDeepList xs k
  | _, _ => false

/-- Deep key search in the entry list of an object. -/
def hasKeyDeepFields : List (String × JValue) → String → Bool
  | [], _ => false
  | (k', v) :: rest, k => k' == k || hasKeyDeep v k || hasKeyDeepFields rest k

/-- Deep key search in the element list of an array. -/
def hasKeyDeepList : List JValue → String → Bool
  | [], _ => false
  | v :: rest, k => hasKeyDeep v k || hasKeyDeepList rest k

end

/-- Follow a chain of keys through nested objects, returning the value at
the end of the path (used only to discriminate concrete trees in
counterexamples). -/
def getPath : Obj → List String → Option JValue
  | _, [] => none
  | o, [k] => getKey o k
  | o, k :: rest =>
    match getKey o k with
    | some (.obj o') => getPath o' rest
    | _ => none

/-! ## Namespace name validation — `app.py:282-292` -/

/-- Python `str.isalnum`, restricted to the ASCII letters and digits the
namespace strings of this system are built from (Python's predicate is
Unicode-aware; the two agree on ASCII). -/
def pyIsAlnum (c : Char) : Bool := c.isAlphanum

/-- `app.py:282-292` `_is_valid_namespace_name`.  The length check comes
first; on a nonempty name the source indexes `name[0]` and `name[-1]` and
then tests every character; on the empty string `name[0]` raises
`IndexError`, modelled by `Except.error`. -/
def isValidNamespaceName (name : String) : Except String Bool :=
  if name.data.length > 63 then .ok false
  else
    match name.data with
    | [] => .error "IndexError: string index out of range"
    | c :: rest =>
      if !(pyIsAlnum c) || !(pyIsAlnum (rest.getLastD c)) then .ok false
      else .ok ((c :: rest).all (fun ch => pyIsAlnum ch || ch == '-'))

/-- Modelled from the spec's words (§6): a namespace name is valid iff its
length is at most 63, its first and last characters are alphanumeric, and
every character is alphanumeric or a dash. -/
def namespaceValidSpec (name : String) : Bool :=
  match name.data with
  | [] => false
  | c :: rest =>
    decide (name.data.length ≤ 63) && pyIsAlnum c && pyIsAlnum (rest.getLastD c) &&
      (c :: rest).all (fun ch => pyIsAlnum ch || ch == '-')

/-! ## Persisted data model — `orm.py` -/

/-- `orm.py:43-58` `HubEvent`: append-only event row. -/
structure HubEventRec where
  eventType : String
  message : String
  timestamp : Nat

/-- `orm.py:11-40` `Hub`: the persisted hub record.  Note: the source model
defines *no* `error_message` column — `hub.py` only writes one behind
`hasattr(self.orm_hub, "error_message")` guards, which are always false for
this model, so no error message is ever persisted.  The `created` timestamp
is omitted (no claim mentions it). -/
structure HubRecord where
  name : String
  /-- the `namespace` column -/
  nsName : String
  owner : String
  helmReleaseName : String
  helmChart : String
  helmChartVersion : Option String := none
  values : Obj := []
  status : String := "pending"
  url : Option String := none
  lastActivity : Option Nat := none
  description : String := ""
  events : List HubEventRec := []

/-- `orm.py:61-78` `User`. -/
structure UserRec where
  name : String
  admin : Bool := false
  allowedNamespacePfx : List String := []
  maxHubs : Option Int := none

/-- The application state `create_hub` consults: the in-memory hub cache
`self.hubs` (loaded from and kept in sync with the store, and standing in
for it here) and the `users` table. -/
structure AppState where
  hubs : List HubRecord
  users : List UserRec

/-! ## `app.py:196-260` `JupyterCluster.create_hub` -/

/-- The distinct failures `create_hub` can raise.  All but `indexError` are
`ValueError`s (the system's ValidationError); `indexError` is the uncaught
`IndexError` escaping `_is_valid_namespace_name` on an empty namespace
string. -/
inductive CreateErr where
  | indexError
  | invalidNamespace
  | namespaceInUse
  | hubLimitReached
  | namespacePfxDenied
deriving Repr, DecidableEq

/-- `app.py:196-260` `create_hub`: compute the namespace from the configured
namespace prfx and the hub name, validate it, reject a namespace already in
use, apply the owner's quota and namespace-prfx policy when a `User` row
exists, then persist a `pending` hub (appended to the store/cache).  All
checks happen before the store is touched. -/
def createHub (pfx defaultChart : String) (st : AppState) (name owner : String)
    (values : Option Obj) (description : String) :
    Except CreateErr (AppState × HubRecord) :=
  let ns := pfx ++ name
  match isValidNamespaceName ns with
  | .error _ => .error .indexError
  | .ok false => .error .invalidNamespace
  | .ok true =>
    if st.hubs.any (fun h => h.nsName == ns) then .error .namespaceInUse
    else
      let userHubs := st.hubs.filter (fun h => h.owner == owner)
      let mk : Except CreateErr (AppState × HubRecord) :=
        let rec0 : HubRecord :=
          { name := name, nsName := ns, owner := owner,
            helmReleaseName := "jupyterhub-" ++ name, helmChart := defaultChart,
            values := values.getD [], description := description, status := "pending" }
        .ok ({ st with hubs := st.hubs ++ [rec0] }, rec0)
      match st.users.find? (fun u => u.name == owner) with
      | some u =>
        -- `if user and user.max_hubs and len(user_hubs) >= user.max_hubs`
        if (match u.maxHubs with
            | some m => decide (m ≠ 0) && decide ((userHubs.length : Int) ≥ m)
            | none => false) then
          .error .hubLimitReached
        -- `if user and user.allowed_namespace_prefixes` then require a match
        else if !u.allowedNamespacePfx.isEmpty &&
            !(u.allowedNamespacePfx.any (fun p => p.isPrefixOf ns)) then
          .error .namespacePfxDenied
        else mk
      | none => mk

/-! ## `spawner.py:417-463` `_ensure_namespace` (NamespaceManager) -/

/-- Outcome of a Kubernetes API call: a value, an `ApiException` with an
HTTP status, or a non-API exception. -/
inductive ApiResult (α : Type) where
  | ok (val : α)
  | apiErr (status : Nat)
  | exc

/-- Namespace metadata as the Kubernetes client returns it: `metadata.labels`
is `None` when the namespace carries no labels. -/
structure NsMeta where
  labels : Option (List (String × String))

/-- Assignment into a string-valued label map (Python `dict.update`, one key). -/
def strSet : List (String × String) → String → String → List (String × String)
  | [], k, v => [(k, v)]
  | (k', v') :: rest, k, v =>
    if k' = k then (k', v) :: rest else (k', v') :: strSet rest k v

/-- The three ownership labels merged by `_ensure_namespace`
(`spawner.py:438-444`), in source order. -/
def ownershipLabels (lbls : List (String × String)) (hubName owner : String) :
    List (String × String) :=
  strSet (strSet (strSet lbls "jupytercluster.io/managed" "true")
    "jupytercluster.io/hub" hubName) "jupytercluster.io/owner" owner

/-- `spawner.py:417-463` `_ensure_namespace`: with creation disabled, only
verify existence (404 becomes a `RuntimeError` with remediation text); with
creation enabled, patch the ownership labels into an existing namespace
(`ns.metadata.labels.update(...)` — an `AttributeError` when `labels` is
`None`) or create the namespace with exactly those labels on 404.  Any other
API error, and any non-API exception, propagates. -/
def ensureNamespace (allowCreation : Bool) (hubName owner ns : String)
    (read : ApiResult NsMeta) : Except String NsMeta :=
  if !allowCreation then
    match read with
    | .ok m => .ok m
    | .apiErr 404 =>
      .error ("Namespace " ++ ns ++ " does not exist and namespace creation is disabled. " ++
        "Please create the namespace manually or enable namespace creation in " ++
        "JupyterCluster configuration.")
    | .apiErr s => .error ("ApiException status " ++ toString s)
    | .exc => .error "Exception"
  else
    match read with
    | .ok m =>
      match m.labels with
      | some lbls => .ok { labels := some (ownershipLabels lbls hubName owner) }
      | none => .error "AttributeError: NoneType object has no attribute update"
    | .apiErr 404 =>
      .ok { labels := some (ownershipLabels [] hubName owner) }
    | .apiErr s => .error ("ApiException status " ++ toString s)
    | .exc => .error "Exception"

/-! ## `spawner.py:382-415` `poll` and `hub.py:161-164` -/

/-- A pod as `poll` sees it: its name and phase. -/
structure PodInfo where
  name : String
  phase : String

/-- The cluster responses `poll` consumes: the namespace read and the pod
listing. -/
structure PollEnv where
  nsRead : ApiResult Unit
  podList : ApiResult (List PodInfo)

/-- Substring test used for `"jupyterhub" in p.metadata.name.lower()`. -/
def strContains (s pat : String) : Bool :=
  (List.range (s.data.length + 1)).any (fun i => pat.data.isPrefixOf (s.data.drop i))

/-- `spawner.py:382-415` `HubSpawner.poll`: `none` means running, `some 1`
stopped.  A 404 on the namespace read yields `1`; any other `ApiException`
is re-raised and, like every other exception, caught by the outer
`except Exception` which returns `1`. -/
def spawnerPoll (env : PollEnv) : Option Nat :=
  match env.nsRead with
  | .apiErr 404 => some 1
  | .apiErr _ => some 1
  | .exc => some 1
  | .ok _ =>
    match env.podList with
    | .ok pods =>
      if (pods.filter (fun p => strContains p.name.toLower "jupyterhub")).isEmpty then some 1
      else if (pods.filter (fun p => strContains p.name.toLower "jupyterhub")).any
          (fun p => p.phase == "Running") then none
      else some 1
    | .apiErr _ => some 1
    | .exc => some 1

/-- `hub.py:161-164` `HubInstance.poll`: delegates to the spawner and leaves
both the in-memory hub and the persisted record untouched. -/
def hubPoll (rec : HubRecord) (env : PollEnv) : Option Nat × HubRecord :=
  (spawnerPoll env, rec)

/-! ## `spawner.py:329-373` `start`, `465-605` `_deploy_helm_release`,
`hub.py:93-133` `HubInstance.start` -/

/-- External-world outcomes consumed by one `start` run: the cluster state
the sanitizer checks against, the namespace-creation policy flag, the
namespace read of `_ensure_namespace`, the exit of the `helm upgrade
--install` subprocess with its captured output streams, the URL
`_wait_for_hub_ready` resolves (that helper always returns a URL — on
timeout a placeholder — and never raises), the wall clock, and the traceback
text Python would render for a failure. -/
structure StartEnv where
  cs : ClusterState
  allowNamespaceCreation : Bool
  nsRead : ApiResult NsMeta
  helmExit : Nat
  helmStdout : String
  helmStderr : String
  readyUrl : String
  now : Nat
  tracebackText : String

/-- `spawner.py:352-359` and `477-484`: make sure `hub`, `proxy`,
`singleuser`, `ingress` are present and dict-valued (required by the chart
schema), in that order. -/
def requiredFieldsFix (m : Obj) : Obj :=
  ["hub", "proxy", "singleuser", "ingress"].foldl
    (fun acc f =>
      match getKey acc f with
      | some (.obj _) => acc
      | _ => dictSet acc f (.obj []))
    m

/-- `spawner.py:486-517`: final storage sanitization right before the helm
call (same per-value fix as in `_validate_helm_values`). -/
def finalStorageFix (cs : ClusterState) (values : Obj) : Obj :=
  match getKey values "singleuser" with
  | some (.obj su) => dictSet values "singleuser" (.obj (suStorage cs su))
  | _ => values

/-- `spawner.py:519-527`: final `db.pvc.storageClassName` check (here `db`
is read from the top level directly). -/
def finalDbFix (cs : ClusterState) (values : Obj) : Obj :=
  dbStorageFix cs values

/-- `spawner.py:529-553`: final node-affinity check (same extraction and
crash behaviour as in `_validate_helm_values`). -/
def finalAffinityFix (cs : ClusterState) (values : Obj) : Except String Obj :=
  match getKey values "singleuser" with
  | some (.obj su) =>
    match suAffinity cs su with
    | .error e => .error e
    | .ok su' => .ok (dictSet values "singleuser" (.obj su'))
  | _ => .ok values

/-- `spawner.py:465-605` `_deploy_helm_release`: repo setup (ignored —
errors are swallowed there), final sanitization, then the helm subprocess;
a non-zero exit raises `RuntimeError` carrying stderr (or stdout when
stderr is empty). -/
def deployHelmRelease (env : StartEnv) (values : Obj) : Except String Unit :=
  let values := requiredFieldsFix values
  let values := finalStorageFix env.cs values
  let values := finalDbFix env.cs values
  match finalAffinityFix env.cs values with
  | .error e => .error e
  | .ok _ =>
    if env.helmExit ≠ 0 then
      .error ("Helm deployment failed: " ++
        (if !env.helmStderr.isEmpty then env.helmStderr else env.helmStdout))
    else .ok ()

/-- `spawner.py:329-373` `HubSpawner.start`: ensure the namespace, merge
`default_values` with the (re-)sanitized caller values (`if values:` — the
merge and second sanitization are skipped for an empty dict), force the
required schema fields, pop any `namespace` key, deploy, and wait for the
URL. -/
def spawnerStart (env : StartEnv) (hubName owner ns : String) (defaultValues : Obj)
    (values : Obj) : Except String String :=
  match ensureNamespace env.allowNamespaceCreation hubName owner ns env.nsRead with
  | .error e => .error e
  | .ok _ =>
    let merged := defaultValues
    match (if values.isEmpty then .ok merged else
      match sanitize env.cs values with
      | .error e => .error e
      | .ok sanitized => .ok (objUpdate merged sanitized) : Except String Obj) with
    | .error e => .error e
    | .ok merged =>
      let merged := requiredFieldsFix merged
      let merged := eraseKey merged "namespace"
      match deployHelmRelease env merged with
      | .error e => .error e
      | .ok _ => .ok env.readyUrl

/-- `hub.py:166-177` `_save_to_orm`: copy status, url, last-activity, values
and (when nonempty) description from the in-memory hub onto the record.  The
`error_message` copy is guarded by `hasattr(self.orm_hub, "error_message")`,
which is false — `orm.Hub` has no such column — so nothing of it reaches the
record. -/
structure HubMem where
  name : String
  nsName : String
  owner : String
  helmReleaseName : String
  helmChart : String
  values : Obj
  status : String
  url : String
  lastActivity : Option Nat
  description : String
  errorMessage : String

def saveToOrm (mem : HubMem) (rec : HubRecord) : HubRecord :=
  { rec with
    status := mem.status
    url := some mem.url
    lastActivity := mem.lastActivity
    values := mem.values
    description := if !mem.description.isEmpty then mem.description else rec.description }

/-- `hub.py:179-202` `_log_error_event`: set the in-memory `error_message`
(the guarded write to the record is skipped — no such column) and append one
`error` event to the record's event list. -/
def logErrorEvent (operation errorMessage : String) (now : Nat)
    (mem : HubMem) (rec : HubRecord) : HubMem × HubRecord :=
  ({ mem with errorMessage := "[" ++ operation ++ "] " ++ errorMessage },
   { rec with events := rec.events ++
      [{ eventType := "error", message := operation ++ ": " ++ errorMessage,
         timestamp := now }] })

/-- `hub.py:93-133` `HubInstance.start`: merge stored values with overrides
(`if values:` — a `None` or empty dict is skipped), sanitize (an exception
here propagates before any status change), persist `pending`, run the
spawner, and persist `running`+URL on success or `error` plus one event on
failure, re-raising the failure. -/
def hubStart (env : StartEnv) (mem : HubMem) (rec : HubRecord)
    (overrides : Option Obj) : Except String Unit × HubMem × HubRecord :=
  let merged :=
    match overrides with
    | some o => if o.isEmpty then mem.values else objUpdate mem.values o
    | none => mem.values
  match sanitize env.cs merged with
  | .error e => (.error e, mem, rec)
  | .ok merged =>
    let mem1 := { mem with status := "pending" }
    let rec1 := saveToOrm mem1 rec
    match spawnerStart env mem.name mem.owner mem.nsName mem.values merged with
    | .ok url =>
      let mem2 := { mem1 with status := "running", url := url, lastActivity := some env.now }
      (.ok (), mem2, saveToOrm mem2 rec1)
    | .error e =>
      let fullError := e ++ "\n\nTraceback:\n" ++ env.tracebackText
      let mem2 := { mem1 with status := "error" }
      let rec2 := saveToOrm mem2 rec1
      let (mem3, rec3) := logErrorEvent "start" fullError env.now mem2 rec2
      (.error e, mem3, rec3)

/-! ## Basic lemmas about the dict operations -/

@[simp] theorem getKey_nil (k : String) : getKey [] k = none := rfl

theorem getKey_cons (k' : String) (v : JValue) (rest : Obj) (k : String) :
    getKey ((k', v) :: rest) k = if k' = k then some v else getKey rest k := rfl

theorem dictSet_cons (k' : String) (v' : JValue) (rest : Obj) (k : String) (v : JValue) :
    dictSet ((k', v') :: rest) k v =
      if k' = k then (k', v) :: rest else (k', v') :: dictSet rest k v := rfl

theorem eraseKey_cons (k' : String) (v' : JValue) (rest : Obj) (k : String) :
    eraseKey ((k', v') :: rest) k =
      if k' = k then eraseKey rest k else (k', v') :: eraseKey rest k := rfl

@[simp] theorem getKey_dictSet_self (s : Obj) (k : String) (v : JValue) :
    getKey (dictSet s k v) k = some v := by
  induction s with
  | nil => simp [dictSet, getKey]
  | cons kv rest ih =>
    obtain ⟨k', v'⟩ := kv
    by_cases h : k' = k <;> simp [dictSet, getKey, h, ih]

theorem getKey_dictSet_ne (s : Obj) (k k' : String) (v : JValue) (h : k' ≠ k) :
    getKey (dictSet s k v) k' = getKey s k' := by
  have h₀ : ¬(k = k') := fun hh => h hh.symm
  induction s with
  | nil => simp [dictSet, getKey, h₀]
  | cons kv rest ih =>
    obtain ⟨k₁, v₁⟩ := kv
    by_cases h₁ : k₁ = k
    · simp [dictSet_cons, getKey_cons, h₁, h₀]
    · simp only [dictSet_cons, if_neg h₁, getKey_cons]
      by_cases h₂ : k₁ = k' <;> simp [h₂, ih]

/-- Writing back the value that is already stored is a no-op. -/
theorem dictSet_eq_self (s : Obj) (k : String) (v : JValue)
    (h : getKey s k = some v) : dictSet s k v = s := by
  induction s with
  | nil => simp [getKey] at h
  | cons kv rest ih =>
    obtain ⟨k₁, v₁⟩ := kv
    by_cases h₁ : k₁ = k
    · simp only [getKey, if_pos h₁, Option.some.injEq] at h
      simp [dictSet, if_pos h₁, h]
    · simp only [getKey, if_neg h₁] at h
      simp [dictSet, if_neg h₁, ih h]

theorem dictSet_of_not_contains (s : Obj) (k : String) (v : JValue)
    (h : getKey s k = none) : dictSet s k v = s ++ [(k, v)] := by
  induction s with
  | nil => simp [dictSet]
  | cons kv rest ih =>
    obtain ⟨k₁, v₁⟩ := kv
    by_cases h₁ : k₁ = k
    · simp [getKey, if_pos h₁] at h
    · simp only [getKey, if_neg h₁] at h
      simp [dictSet, if_neg h₁, ih h]

@[simp] theorem getKey_eraseKey_self (s : Obj) (k : String) :
    getKey (eraseKey s k) k = none := by
  induction s with
  | nil => simp [eraseKey]
  | cons kv rest ih =>
    obtain ⟨k₁, v₁⟩ := kv
    by_cases h₁ : k₁ = k <;> simp [eraseKey, getKey, h₁, ih]

theorem getKey_eraseKey_ne (s : Obj) (k k' : String) (h : k' ≠ k) :
    getKey (eraseKey s k) k' = getKey s k' := by
  have h₀ : ¬(k = k') := fun hh => h hh.symm
  induction s with
  | nil => simp [eraseKey]
  | cons kv rest ih =>
    obtain ⟨k₁, v₁⟩ := kv
    by_cases h₁ : k₁ = k
    · simp [eraseKey_cons, getKey_cons, h₁, h₀, ih]
    · simp only [eraseKey_cons, if_neg h₁, getKey_cons]
      by_cases h₂ : k₁ = k' <;> simp [h₂, ih]

theorem eraseKey_of_not_contains (s : Obj) (k : String)
    (h : getKey s k = none) : eraseKey s k = s := by
  induction s with
  | nil => rfl
  | cons kv rest ih =>
    obtain ⟨k₁, v₁⟩ := kv
    by_cases h₁ : k₁ = k
    · simp [getKey, if_pos h₁] at h
    · simp only [getKey, if_neg h₁] at h
      simp [eraseKey, if_neg h₁, ih h]

theorem getKey_mem (s : Obj) (k : String) (v : JValue)
    (h : getKey s k = some v) : (k, v) ∈ s := by
  induction s with
  | nil => simp [getKey] at h
  | cons kv rest ih =>
    obtain ⟨k₁, v₁⟩ := kv
    by_cases h₁ : k₁ = k
    · rw [getKey_cons, if_pos h₁] at h
      injection h with h₂
      rw [← h₁, ← h₂]
      exact List.mem_cons_self _ _
    · rw [getKey_cons, if_neg h₁] at h
      exact List.mem_cons_of_mem _ (ih h)

theorem mem_dictSet (s : Obj) (k : String) (v : JValue) (kv : String × JValue)
    (h : kv ∈ dictSet s k v) : kv ∈ s ∨ kv = (k, v) := by
  induction s with
  | nil => simp only [dictSet, List.mem_singleton] at h; right; exact h
  | cons kv₁ rest ih =>
    obtain ⟨k₁, v₁⟩ := kv₁
    by_cases h₁ : k₁ = k
    · rw [dictSet_cons, if_pos h₁] at h
      rcases List.mem_cons.mp h with h | h
      · right; rw [h, h₁]
      · left; exact List.mem_cons_of_mem _ h
    · rw [dictSet_cons, if_neg h₁] at h
      rcases List.mem_cons.mp h with h | h
      · left; rw [h]; exact List.mem_cons_self _ _
      · rcases ih h with h' | h'
        · left; exact List.mem_cons_of_mem _ h'
        · right; exact h'

theorem mem_eraseKey (s : Obj) (k : String) (kv : String × JValue)
    (h : kv ∈ eraseKey s k) : kv ∈ s := by
  induction s with
  | nil => simp only [eraseKey] at h; exact absurd h (List.not_mem_nil kv)
  | cons kv₁ rest ih =>
    obtain ⟨k₁, v₁⟩ := kv₁
    by_cases h₁ : k₁ = k
    · simp only [eraseKey, if_pos h₁] at h
      exact List.mem_cons_of_mem _ (ih h)
    · simp only [eraseKey, if_neg h₁, List.mem_cons] at h
      rcases h with h | h
      · simp [h]
      · exact List.mem_cons_of_mem _ (ih h)

theorem getKey_isSome_of_mem_keys (s : Obj) (k : String)
    (h : k ∈ objKeys s) : (getKey s k).isSome := by
  induction s with
  | nil => simp [objKeys] at h
  | cons kv rest ih =>
    obtain ⟨k₁, v₁⟩ := kv
    by_cases h₁ : k₁ = k
    · simp [getKey, h₁]
    · simp only [objKeys, List.map_cons, List.mem_cons] at h
      rcases h with h | h
      · exact absurd h.symm h₁
      · simp only [getKey, if_neg h₁]
        exact ih h

theorem objKeys_dictSet_of_contains (s : Obj) (k : String) (v : JValue)
    (h : containsKey s k = true) : objKeys (dictSet s k v) = objKeys s := by
  induction s with
  | nil => simp [containsKey, getKey] at h
  | cons kv rest ih =>
    obtain ⟨k₁, v₁⟩ := kv
    by_cases h₁ : k₁ = k
    · simp [dictSet, if_pos h₁, objKeys]
    · simp only [containsKey, getKey, if_neg h₁] at h
      simp only [dictSet, if_neg h₁, objKeys, List.map_cons]
      exact congrArg (k₁ :: ·) (ih h)

theorem objKeys_dictSet_of_not_contains (s : Obj) (k : String) (v : JValue)
    (h : getKey s k = none) : objKeys (dictSet s k v) = objKeys s ++ [k] := by
  rw [dictSet_of_not_contains s k v h]
  simp [objKeys]

theorem nodupKeys_dictSet (s : Obj) (k : String) (v : JValue)
    (h : NodupKeys s) : NodupKeys (dictSet s k v) := by
  unfold NodupKeys at *
  cases hc : getKey s k with
  | some w =>
    rw [objKeys_dictSet_of_contains s k v (by simp [containsKey, hc])]
    exact h
  | none =>
    rw [objKeys_dictSet_of_not_contains s k v hc]
    rw [List.nodup_append]
    refine ⟨h, List.nodup_singleton k, ?_⟩
    intro a ha hb
    simp only [List.mem_singleton] at hb
    subst hb
    have := getKey_isSome_of_mem_keys s a ha
    rw [hc] at this
    simp at this

theorem objKeys_eraseKey_sublist (s : Obj) (k : String) :
    (objKeys (eraseKey s k)).Sublist (objKeys s) := by
  induction s with
  | nil => simp [eraseKey, objKeys]
  | cons kv rest ih =>
    obtain ⟨k₁, v₁⟩ := kv
    by_cases h₁ : k₁ = k
    · simp only [eraseKey, if_pos h₁, objKeys, List.map_cons]
      exact ih.cons _
    · simp only [eraseKey, if_neg h₁, objKeys, List.map_cons]
      exact ih.cons₂ _

theorem nodupKeys_eraseKey (s : Obj) (k : String) (h : NodupKeys s) :
    NodupKeys (eraseKey s k) :=
  (objKeys_eraseKey_sublist s k).nodup h

theorem getKey_eq_none_of_not_mem_keys (s : Obj) (k : String)
    (h : k ∉ objKeys s) : getKey s k = none := by
  cases hc : getKey s k with
  | none => rfl
  | some v =>
    exact absurd (List.mem_map.mpr ⟨(k, v), getKey_mem s k v hc, rfl⟩) h

theorem getKey_ne_none_of_mem (s : Obj) (k : String) (v : JValue)
    (h : (k, v) ∈ s) : getKey s k ≠ none := by
  intro hc
  exact absurd (List.mem_map.mpr ⟨(k, v), h, rfl⟩)
    (fun hm => by
      have := getKey_isSome_of_mem_keys s k hm
      rw [hc] at this
      simp at this)

/-! ## Sanitizer invariants: allowed keys, nodup keys, framing -/

theorem contains_mem_iff (l : List String) (a : String) : l.contains a = true ↔ a ∈ l := by
  simp

/-- Every top-level key of `s` is in the whitelist. -/
def AllowedKeys (s : Obj) : Prop := ∀ kv ∈ s, kv.1 ∈ allowedHelmKeys

theorem allowed_getKey_none (s : Obj) (k : String) (hA : AllowedKeys s)
    (hk : k ∉ allowedHelmKeys) : getKey s k = none := by
  cases hc : getKey s k with
  | none => rfl
  | some v => exact absurd (hA (k, v) (getKey_mem s k v hc)) hk

theorem allowedKeys_dictSet (s : Obj) (k : String) (v : JValue)
    (hA : AllowedKeys s) (hk : k ∈ allowedHelmKeys) : AllowedKeys (dictSet s k v) := by
  intro kv hkv
  rcases mem_dictSet s k v kv hkv with h | h
  · exact hA kv h
  · rw [h]; exact hk

theorem allowedKeys_eraseKey (s : Obj) (k : String) (hA : AllowedKeys s) :
    AllowedKeys (eraseKey s k) :=
  fun kv hkv => hA kv (mem_eraseKey s k kv hkv)

/-- Elements of `stepAllow x` come from `x`. -/
theorem mem_stepAllow (x : Obj) (kv : String × JValue) (h : kv ∈ stepAllow x) : kv ∈ x := by
  unfold stepAllow at h
  suffices H : ∀ (l acc : Obj), kv ∈ l.foldl
      (fun acc kv => if allowedHelmKeys.contains kv.1 then dictSet acc kv.1 kv.2 else acc) acc →
      kv ∈ acc ∨ kv ∈ l by
    rcases H x [] h with h' | h'
    · exact absurd h' (List.not_mem_nil kv)
    · exact h'
  intro l
  induction l with
  | nil => intro acc h'; left; exact h'
  | cons kv₁ rest ih =>
    intro acc h'
    simp only [List.foldl_cons] at h'
    rcases ih _ h' with h₂ | h₂
    · by_cases hc : allowedHelmKeys.contains kv₁.1
      · rw [if_pos hc] at h₂
        rcases mem_dictSet acc kv₁.1 kv₁.2 kv h₂ with h₃ | h₃
        · left; exact h₃
        · right; rw [h₃]; exact List.mem_cons_self _ _
      · rw [if_neg hc] at h₂
        left; exact h₂
    · right; exact List.mem_cons_of_mem _ h₂

theorem allowedKeys_stepAllow (x : Obj) : AllowedKeys (stepAllow x) := by
  unfold stepAllow
  suffices H : ∀ (l acc : Obj), AllowedKeys acc → AllowedKeys (l.foldl
      (fun acc kv => if allowedHelmKeys.contains kv.1 then dictSet acc kv.1 kv.2 else acc) acc) by
    exact H x [] (fun kv h => absurd h (List.not_mem_nil kv))
  intro l
  induction l with
  | nil => intro acc hA; exact hA
  | cons kv rest ih =>
    intro acc hA
    simp only [List.foldl_cons]
    by_cases hc : allowedHelmKeys.contains kv.1
    · rw [if_pos hc]
      exact ih _ (allowedKeys_dictSet acc kv.1 kv.2 hA ((contains_mem_iff _ _).mp hc))
    · rw [if_neg hc]
      exact ih _ hA

theorem nodupKeys_stepAllow (x : Obj) : NodupKeys (stepAllow x) := by
  unfold stepAllow
  suffices H : ∀ (l acc : Obj), NodupKeys acc → NodupKeys (l.foldl
      (fun acc kv => if allowedHelmKeys.contains kv.1 then dictSet acc kv.1 kv.2 else acc) acc) by
    exact H x [] (by simp [NodupKeys, objKeys])
  intro l
  induction l with
  | nil => intro acc hN; exact hN
  | cons kv rest ih =>
    intro acc hN
    simp only [List.foldl_cons]
    by_cases hc : allowedHelmKeys.contains kv.1
    · rw [if_pos hc]
      exact ih _ (nodupKeys_dictSet acc kv.1 kv.2 hN)
    · rw [if_neg hc]
      exact ih _ hN

/-- On an object whose keys are whitelisted and duplicate-free, the
whitelist pass is the identity. -/
theorem stepAllow_fix (s : Obj) (hA : AllowedKeys s) (hN : NodupKeys s) :
    stepAllow s = s := by
  unfold stepAllow
  suffices H : ∀ (l acc : Obj), (∀ kv ∈ l, kv.1 ∈ allowedHelmKeys) →
      (objKeys (acc ++ l)).Nodup → l.foldl
      (fun acc kv => if allowedHelmKeys.contains kv.1 then dictSet acc kv.1 kv.2 else acc) acc
      = acc ++ l by
    have := H s [] hA (by simpa [NodupKeys] using hN)
    simpa using this
  intro l
  induction l with
  | nil => intro acc _ _; simp
  | cons kv rest ih =>
    intro acc hA' hN'
    obtain ⟨k, v⟩ := kv
    have hk : k ∈ allowedHelmKeys := hA' (k, v) (List.mem_cons_self _ _)
    have hknotin : k ∉ objKeys acc := by
      intro hmem
      have : ¬ (objKeys (acc ++ (k, v) :: rest)).Nodup := by
        simp only [objKeys, List.map_append, List.map_cons]
        intro hnd
        have hd := List.disjoint_of_nodup_append hnd
        exact hd hmem (List.mem_cons_self _ _)
      exact this hN'
    have hnone : getKey acc k = none := getKey_eq_none_of_not_mem_keys acc k hknotin
    simp only [List.foldl_cons, if_pos ((contains_mem_iff _ _).mpr hk)]
    rw [dictSet_of_not_contains acc k v hnone]
    have hrest : ∀ kv ∈ rest, kv.1 ∈ allowedHelmKeys :=
      fun kv h => hA' kv (List.mem_cons_of_mem _ h)
    have hN₂ : (objKeys ((acc ++ [(k, v)]) ++ rest)).Nodup := by
      simpa [List.append_assoc] using hN'
    rw [ih (acc ++ [(k, v)]) hrest hN₂]
    simp

/-! ## Framing: each sanitizer step touches only its own top-level key -/

theorem getKey_stepNamespace_of_allowed (s : Obj) (hA : AllowedKeys s) :
    stepNamespace s = s := by
  have h : getKey s "namespace" = none :=
    allowed_getKey_none s "namespace" hA (by decide)
  simp [stepNamespace, containsKey, h]

theorem getKey_stepRbac_ne (s : Obj) (k : String) (h : k ≠ "rbac") :
    getKey (stepRbac s) k = getKey s k := by
  unfold stepRbac
  repeat' split
  all_goals first
  | rfl
  | exact getKey_dictSet_ne s "rbac" k _ h

theorem getKey_stepHttpRoute_ne (s : Obj) (k : String) (h : k ≠ "httpRoute") :
    getKey (stepHttpRoute s) k = getKey s k := by
  unfold stepHttpRoute
  repeat' split
  all_goals first
  | rfl
  | exact getKey_dictSet_ne s "httpRoute" k _ h

theorem getKey_stepHubHttpRoute_ne (s : Obj) (k : String) (h : k ≠ "hub") :
    getKey (stepHubHttpRoute s) k = getKey s k := by
  unfold stepHubHttpRoute
  repeat' split
  all_goals first
  | rfl
  | exact getKey_dictSet_ne s "hub" k _ h

/-- With the whitelist invariant there is never a top-level `db` section, so
the threaded `db` fix inside the `singleuser` block is the identity and
`stepSingleuser` reduces to the value-level transformation of the
`singleuser` entry. -/
theorem stepSingleuser_eq_of_allowed (cs : ClusterState) (s : Obj) (hA : AllowedKeys s) :
    stepSingleuser cs s =
      match getKey s "singleuser" with
      | some (.obj su) =>
        (match suFull cs su with
         | .error e => .error e
         | .ok su3 => .ok (dictSet s "singleuser" (.obj su3)))
      | _ => .ok s := by
  have hdb : getKey s "db" = none := allowed_getKey_none s "db" hA (by decide)
  unfold stepSingleuser
  cases hsu : getKey s "singleuser" with
  | none => rfl
  | some v =>
    cases v with
    | obj su =>
      unfold sanitizeSingleuser suFull
      have hfix : dbStorageFix cs s = s := by
        unfold dbStorageFix
        rw [hdb]
      dsimp only
      simp only [hfix]
      cases hst : getKey (suSecurityContext su) "storage" with
      | none => rfl
      | some w => cases w <;> rfl
    | null => rfl
    | bool b => rfl
    | num n => rfl
    | str s' => rfl
    | arr xs => rfl

theorem getKey_stepSingleuser_ne (cs : ClusterState) (s t : Obj) (k : String)
    (hA : AllowedKeys s) (h : stepSingleuser cs s = .ok t) (hk : k ≠ "singleuser") :
    getKey t k = getKey s k := by
  rw [stepSingleuser_eq_of_allowed cs s hA] at h
  split at h
  · split at h
    · exact absurd h (by simp)
    · injection h with h
      rw [← h]
      exact getKey_dictSet_ne s "singleuser" k _ hk
  · injection h with h
    rw [← h]

/-! ## Per-step fixpoint ("clean") predicates -/

/-- A dict-valued `rbac` section no longer holds `clusterRoleBindings`. -/
def RbacClean (s : Obj) : Prop :=
  ∀ rbac, getKey s "rbac" = some (.obj rbac) →
    containsKey rbac "clusterRoleBindings" = false

theorem stepRbac_clean (s : Obj) : RbacClean (stepRbac s) := by
  intro rbac hr
  unfold stepRbac at hr
  split at hr
  · rename_i rbac' hr'
    split at hr
    · rw [getKey_dictSet_self] at hr
      injection hr with hr
      injection hr with hr
      rw [← hr]
      simp [containsKey]
    · rename_i hc
      rw [hr'] at hr
      injection hr with hr
      injection hr with hr
      rw [← hr]
      exact Bool.not_eq_true _ ▸ Bool.of_not_eq_true hc
  · rename_i hmiss
    exact (hmiss rbac hr).elim

theorem stepRbac_id (s : Obj) (hC : RbacClean s) : stepRbac s = s := by
  unfold stepRbac
  split
  · rename_i rbac hr
    rw [if_neg (by simp [hC rbac hr])]
  · rfl

/-- A dict-valued `httpRoute` section no longer has a truthy `enabled`. -/
def HttpClean (s : Obj) : Prop :=
  ∀ hr, getKey s "httpRoute" = some (.obj hr) →
    truthy ((getKey hr "enabled").getD (.bool false)) = false

theorem stepHttpRoute_clean (s : Obj) : HttpClean (stepHttpRoute s) := by
  intro hr h
  unfold stepHttpRoute at h
  split at h
  · rename_i hr' h'
    split at h
    · rw [getKey_dictSet_self] at h
      injection h with h
      injection h with h
      rw [← h]
      simp [truthy]
    · rename_i hc
      rw [h'] at h
      injection h with h
      injection h with h
      rw [← h]
      exact Bool.of_not_eq_true hc
  · rename_i hmiss
    exact (hmiss hr h).elim

theorem stepHttpRoute_id (s : Obj) (hC : HttpClean s) : stepHttpRoute s = s := by
  unfold stepHttpRoute
  split
  · rename_i hr h
    rw [if_neg (by simp [hC hr h])]
  · rfl

/-- A dict-valued `httpRoute` inside a dict-valued `hub` section no longer
has a truthy `enabled`. -/
def HubClean (s : Obj) : Prop :=
  ∀ hub hr, getKey s "hub" = some (.obj hub) →
    getKey hub "httpRoute" = some (.obj hr) →
    truthy ((getKey hr "enabled").getD (.bool false)) = false

theorem stepHubHttpRoute_clean (s : Obj) : HubClean (stepHubHttpRoute s) := by
  intro hub hr hh hhr
  unfold stepHubHttpRoute at hh
  split at hh
  · rename_i hub' hh'
    split at hh
    · rename_i hr' hhr'
      split at hh
      · rw [getKey_dictSet_self] at hh
        injection hh with hh
        injection hh with hh
        rw [← hh] at hhr
        rw [getKey_dictSet_self] at hhr
        injection hhr with hhr
        injection hhr with hhr
        rw [← hhr]
        simp [truthy]
      · rename_i hc
        rw [hh'] at hh
        injection hh with hh
        injection hh with hh
        rw [← hh] at hhr
        rw [hhr'] at hhr
        injection hhr with hhr
        injection hhr with hhr
        rw [← hhr]
        exact Bool.of_not_eq_true hc
    · rename_i hmiss
      rw [hh'] at hh
      injection hh with hh
      injection hh with hh
      rw [← hh] at hhr
      exact (hmiss hr hhr).elim
  · rename_i hmiss
    exact (hmiss hub hh).elim

theorem stepHubHttpRoute_id (s : Obj) (hC : HubClean s) : stepHubHttpRoute s = s := by
  unfold stepHubHttpRoute
  split
  · rename_i hub hh
    split
    · rename_i hr hhr
      rw [if_neg (by simp [hC hub hr hh hhr])]
    · rfl
  · rfl

/-! ## The `singleuser` value transformation is a closure operator -/

/-- A dict-valued `securityContext` holds none of the dangerous keys. -/
def SecClean (su : Obj) : Prop :=
  ∀ sc, getKey su "securityContext" = some (.obj sc) →
    getKey sc "privileged" = none ∧
    getKey sc "allowPrivilegeEscalation" = none ∧
    getKey sc "capabilities" = none

theorem eraseKeys_dangerous_eq (sc : Obj) :
    eraseKeys sc dangerousSecurityKeys =
      eraseKey (eraseKey (eraseKey sc "privileged") "allowPrivilegeEscalation")
        "capabilities" := rfl

theorem eraseKeys_dangerous_getKey (sc : Obj) :
    getKey (eraseKeys sc dangerousSecurityKeys) "privileged" = none ∧
    getKey (eraseKeys sc dangerousSecurityKeys) "allowPrivilegeEscalation" = none ∧
    getKey (eraseKeys sc dangerousSecurityKeys) "capabilities" = none := by
  rw [eraseKeys_dangerous_eq]
  refine ⟨?_, ?_, ?_⟩
  · rw [getKey_eraseKey_ne _ _ _ (by decide), getKey_eraseKey_ne _ _ _ (by decide)]
    exact getKey_eraseKey_self sc "privileged"
  · rw [getKey_eraseKey_ne _ _ _ (by decide)]
    exact getKey_eraseKey_self _ "allowPrivilegeEscalation"
  · exact getKey_eraseKey_self _ "capabilities"

theorem suSecurityContext_clean (su : Obj) : SecClean (suSecurityContext su) := by
  intro sc h
  unfold suSecurityContext at h
  split at h
  · rw [getKey_dictSet_self] at h
    injection h with h
    injection h with h
    rw [← h]
    exact eraseKeys_dangerous_getKey _
  · rename_i hmiss
    exact (hmiss sc h).elim

theorem eraseKeys_dangerous_id (sc : Obj)
    (h1 : getKey sc "privileged" = none)
    (h2 : getKey sc "allowPrivilegeEscalation" = none)
    (h3 : getKey sc "capabilities" = none) :
    eraseKeys sc dangerousSecurityKeys = sc := by
  rw [eraseKeys_dangerous_eq]
  rw [eraseKey_of_not_contains sc "privileged" h1,
      eraseKey_of_not_contains sc "allowPrivilegeEscalation" h2,
      eraseKey_of_not_contains sc "capabilities" h3]

theorem suSecurityContext_id (su : Obj) (hC : SecClean su) : suSecurityContext su = su := by
  unfold suSecurityContext
  split
  · rename_i sc h
    obtain ⟨h1, h2, h3⟩ := hC sc h
    rw [eraseKeys_dangerous_id sc h1 h2 h3]
    exact dictSet_eq_self su "securityContext" _ h
  · rfl

theorem getKey_suSecurityContext_ne (su : Obj) (k : String) (h : k ≠ "securityContext") :
    getKey (suSecurityContext su) k = getKey su k := by
  unfold suSecurityContext
  split
  · exact getKey_dictSet_ne su "securityContext" k _ h
  · rfl

/-- A storage object whose `extraVolumes`, when a dict, is nonempty. -/
def EVClean (stg : Obj) : Prop :=
  ∀ xs, getKey stg "extraVolumes" = some (.obj xs) → xs.isEmpty = false

/-- A storage object whose `extraVolumeMounts`, when a dict, is nonempty. -/
def EMClean (stg : Obj) : Prop :=
  ∀ xs, getKey stg "extraVolumeMounts" = some (.obj xs) → xs.isEmpty = false

/-- A storage object on which the `dynamic.storageClass` fix is a no-op. -/
def DynClean (cs : ClusterState) (stg : Obj) : Prop :=
  ∀ dyn, getKey stg "dynamic" = some (.obj dyn) →
    (truthy ((getKey dyn "storageClass").getD .null) &&
      !(checkStorageClassExists cs ((getKey dyn "storageClass").getD .null))) = false ∨
    dictSet dyn "storageClass" (.str "standard") = dyn

theorem fixExtraVolumes_clean (stg : Obj) : EVClean (fixExtraVolumes stg) := by
  intro xs h
  unfold fixExtraVolumes at h
  split at h
  · rename_i xs' h'
    split at h
    · rw [getKey_dictSet_self] at h
      injection h with h
      exact absurd h (by simp)
    · rename_i hne
      rw [h'] at h
      injection h with h
      injection h with h
      rw [← h]
      exact Bool.of_not_eq_true hne
  · rename_i hmiss
    exact (hmiss xs h).elim

theorem fixExtraVolumes_id (stg : Obj) (hC : EVClean stg) : fixExtraVolumes stg = stg := by
  unfold fixExtraVolumes
  split
  · rename_i xs h
    rw [if_neg (by simp [hC xs h])]
  · rfl

theorem getKey_fixExtraVolumes_ne (stg : Obj) (k : String) (h : k ≠ "extraVolumes") :
    getKey (fixExtraVolumes stg) k = getKey stg k := by
  unfold fixExtraVolumes
  repeat' split
  all_goals first
  | rfl
  | exact getKey_dictSet_ne stg "extraVolumes" k _ h

theorem fixExtraVolumeMounts_clean (stg : Obj) : EMClean (fixExtraVolumeMounts stg) := by
  intro xs h
  unfold fixExtraVolumeMounts at h
  split at h
  · rename_i xs' h'
    split at h
    · rw [getKey_dictSet_self] at h
      injection h with h
      exact absurd h (by simp)
    · rename_i hne
      rw [h'] at h
      injection h with h
      injection h with h
      rw [← h]
      exact Bool.of_not_eq_true hne
  · rename_i hmiss
    exact (hmiss xs h).elim

theorem fixExtraVolumeMounts_id (stg : Obj) (hC : EMClean stg) :
    fixExtraVolumeMounts stg = stg := by
  unfold fixExtraVolumeMounts
  split
  · rename_i xs h
    rw [if_neg (by simp [hC xs h])]
  · rfl

theorem getKey_fixExtraVolumeMounts_ne (stg : Obj) (k : String) (h : k ≠ "extraVolumeMounts") :
    getKey (fixExtraVolumeMounts stg) k = getKey stg k := by
  unfold fixExtraVolumeMounts
  repeat' split
  all_goals first
  | rfl
  | exact getKey_dictSet_ne stg "extraVolumeMounts" k _ h

theorem fixDynamic_clean (cs : ClusterState) (stg : Obj) : DynClean cs (fixDynamic cs stg) := by
  intro dyn h
  unfold fixDynamic at h
  split at h
  · rename_i dyn' h'
    split at h
    · rw [getKey_dictSet_self] at h
      injection h with h
      injection h with h
      rw [← h]
      have hsc : getKey (dictSet dyn' "storageClass" (.str "standard")) "storageClass" =
          some (.str "standard") := getKey_dictSet_self _ _ _
      by_cases hstd : checkStorageClassExists cs (.str "standard")
      · left
        rw [hsc]
        simp [hstd]
      · right
        exact dictSet_eq_self _ _ _ hsc
    · rename_i hguard
      rw [h'] at h
      injection h with h
      injection h with h
      rw [← h]
      left
      exact Bool.of_not_eq_true hguard
  · rename_i hmiss
    exact (hmiss dyn h).elim

theorem fixDynamic_id (cs : ClusterState) (stg : Obj) (hC : DynClean cs stg) :
    fixDynamic cs stg = stg := by
  unfold fixDynamic
  split
  · rename_i dyn h
    rcases hC dyn h with hg | hfix
    · rw [if_neg (by simp [hg])]
    · split
      · rw [hfix]
        exact dictSet_eq_self stg "dynamic" _ h
      · rfl
  · rfl

theorem getKey_fixDynamic_ne (cs : ClusterState) (stg : Obj) (k : String) (h : k ≠ "dynamic") :
    getKey (fixDynamic cs stg) k = getKey stg k := by
  unfold fixDynamic
  repeat' split
  all_goals first
  | rfl
  | exact getKey_dictSet_ne stg "dynamic" k _ h

theorem evClean_of_getKey_eq (t u : Obj)
    (h : getKey t "extraVolumes" = getKey u "extraVolumes") (hC : EVClean u) : EVClean t := by
  intro xs hx
  exact hC xs (h ▸ hx)

theorem emClean_of_getKey_eq (t u : Obj)
    (h : getKey t "extraVolumeMounts" = getKey u "extraVolumeMounts") (hC : EMClean u) :
    EMClean t := by
  intro xs hx
  exact hC xs (h ▸ hx)

theorem storageValueFix_idem (cs : ClusterState) (stg : Obj) :
    storageValueFix cs (storageValueFix cs stg) = storageValueFix cs stg := by
  unfold storageValueFix
  set a := fixExtraVolumes stg with ha
  set b := fixExtraVolumeMounts a with hb
  set c := fixDynamic cs b with hc
  have hEVc : EVClean c := by
    refine evClean_of_getKey_eq c a ?_ (ha ▸ fixExtraVolumes_clean stg)
    rw [hc, hb]
    rw [getKey_fixDynamic_ne _ _ _ (by decide), getKey_fixExtraVolumeMounts_ne _ _ (by decide)]
  have h1 : fixExtraVolumes c = c := fixExtraVolumes_id c hEVc
  rw [h1]
  have hEMc : EMClean c := by
    refine emClean_of_getKey_eq c b ?_ (hb ▸ fixExtraVolumeMounts_clean a)
    rw [hc]
    rw [getKey_fixDynamic_ne _ _ _ (by decide)]
  have h2 : fixExtraVolumeMounts c = c := fixExtraVolumeMounts_id c hEMc
  rw [h2]
  exact fixDynamic_id cs c (hc ▸ fixDynamic_clean cs b)

/-- The per-value storage fix is a no-op on the `storage` entry. -/
def StClean (cs : ClusterState) (su : Obj) : Prop :=
  ∀ stg, getKey su "storage" = some (.obj stg) → storageValueFix cs stg = stg

theorem getKey_suStorage_ne (cs : ClusterState) (su : Obj) (k : String)
    (h : k ≠ "storage") : getKey (suStorage cs su) k = getKey su k := by
  unfold suStorage
  split
  · exact getKey_dictSet_ne su "storage" k _ h
  · rfl

theorem suStorage_clean (cs : ClusterState) (su : Obj) : StClean cs (suStorage cs su) := by
  intro stg h
  unfold suStorage at h
  split at h
  · rw [getKey_dictSet_self] at h
    injection h with h
    injection h with h
    rw [← h]
    exact storageValueFix_idem cs _
  · rename_i hmiss
    exact (hmiss stg h).elim

theorem suStorage_id (cs : ClusterState) (su : Obj) (hC : StClean cs su) :
    suStorage cs su = su := by
  unfold suStorage
  split
  · rename_i stg h
    rw [hC stg h]
    exact dictSet_eq_self su "storage" _ h
  · rfl

/-- The node-affinity step either keeps `singleuser` or empties
`extraNodeAffinity`. -/
theorem suAffinity_cases (cs : ClusterState) (su su' : Obj)
    (h : suAffinity cs su = .ok su') :
    su' = su ∨ su' = dictSet su "extraNodeAffinity" (.obj []) := by
  unfold suAffinity at h
  split at h
  · split at h
    · split at h
      · exact absurd h (by simp)
      · split at h
        · injection h with h
          right; rw [← h]
        · injection h with h
          left; rw [← h]
    · injection h with h
      left; rw [← h]
  · injection h with h
    left; rw [← h]

theorem suAffinity_emptyEna (cs : ClusterState) (su : Obj)
    (h : getKey su "extraNodeAffinity" = some (.obj [])) : suAffinity cs su = .ok su := by
  unfold suAffinity
  rw [h]
  simp [getKey, truthy]

theorem suAffinity_stable (cs : ClusterState) (su su' : Obj)
    (h : suAffinity cs su = .ok su') : suAffinity cs su' = .ok su' := by
  rcases suAffinity_cases cs su su' h with he | he
  · rw [he] at h ⊢
    exact h
  · rw [he]
    exact suAffinity_emptyEna cs _ (getKey_dictSet_self su "extraNodeAffinity" (.obj []))

theorem getKey_suAffinity_ne (cs : ClusterState) (su su' : Obj) (k : String)
    (h : suAffinity cs su = .ok su') (hk : k ≠ "extraNodeAffinity") :
    getKey su' k = getKey su k := by
  rcases suAffinity_cases cs su su' h with he | he
  · rw [he]
  · rw [he]
    exact getKey_dictSet_ne su "extraNodeAffinity" k _ hk

/-- The `singleuser` value transformation is stable: a successful output is
a fixed point. -/
theorem suFull_idem (cs : ClusterState) (su su3 : Obj)
    (h : suFull cs su = .ok su3) : suFull cs su3 = .ok su3 := by
  unfold suFull at h ⊢
  have hsec3 : suSecurityContext su3 = su3 := by
    apply suSecurityContext_id
    intro sc hsc
    have e1 : getKey su3 "securityContext" =
        getKey (suStorage cs (suSecurityContext su)) "securityContext" :=
      getKey_suAffinity_ne cs _ su3 _ h (by decide)
    have e2 : getKey (suStorage cs (suSecurityContext su)) "securityContext" =
        getKey (suSecurityContext su) "securityContext" :=
      getKey_suStorage_ne cs _ _ (by decide)
    exact suSecurityContext_clean su sc (by rw [← e2, ← e1]; exact hsc)
  have hst3 : suStorage cs su3 = su3 := by
    apply suStorage_id
    intro stg hstg
    have e1 : getKey su3 "storage" =
        getKey (suStorage cs (suSecurityContext su)) "storage" :=
      getKey_suAffinity_ne cs _ su3 _ h (by decide)
    exact suStorage_clean cs (suSecurityContext su) stg (by rw [← e1]; exact hstg)
  rw [hsec3, hst3]
  exact suAffinity_stable cs _ su3 h

/-- A `singleuser` entry that is a fixed point of the value transformation. -/
def SuClean (cs : ClusterState) (s : Obj) : Prop :=
  ∀ su, getKey s "singleuser" = some (.obj su) → suFull cs su = .ok su

theorem stepSingleuser_clean (cs : ClusterState) (s t : Obj) (hA : AllowedKeys s)
    (h : stepSingleuser cs s = .ok t) : SuClean cs t := by
  rw [stepSingleuser_eq_of_allowed cs s hA] at h
  split at h
  · rename_i su hsu
    split at h
    · exact absurd h (by simp)
    · rename_i su3 hfull
      injection h with h
      intro su' hsu'
      rw [← h, getKey_dictSet_self] at hsu'
      injection hsu' with hsu'
      injection hsu' with hsu'
      rw [← hsu']
      exact suFull_idem cs su su3 hfull
  · rename_i hmiss
    injection h with h
    intro su' hsu'
    rw [← h] at hsu'
    exact (hmiss su' hsu').elim

theorem stepSingleuser_id (cs : ClusterState) (s : Obj) (hA : AllowedKeys s)
    (hC : SuClean cs s) : stepSingleuser cs s = .ok s := by
  rw [stepSingleuser_eq_of_allowed cs s hA]
  split
  · rename_i su hsu
    rw [hC su hsu]
    show Except.ok (dictSet s "singleuser" (.obj su)) = Except.ok s
    rw [dictSet_eq_self s "singleuser" _ hsu]
  · rfl

/-! ## Preservation of the key invariants along the pipeline -/

theorem allowedKeys_stepRbac (s : Obj) (hA : AllowedKeys s) : AllowedKeys (stepRbac s) := by
  unfold stepRbac
  repeat' split
  all_goals first
  | exact hA
  | exact allowedKeys_dictSet s "rbac" _ hA (by decide)

theorem nodupKeys_stepRbac (s : Obj) (hN : NodupKeys s) : NodupKeys (stepRbac s) := by
  unfold stepRbac
  repeat' split
  all_goals first
  | exact hN
  | exact nodupKeys_dictSet s "rbac" _ hN

theorem allowedKeys_stepHttpRoute (s : Obj) (hA : AllowedKeys s) :
    AllowedKeys (stepHttpRoute s) := by
  unfold stepHttpRoute
  repeat' split
  all_goals first
  | exact hA
  | exact allowedKeys_dictSet s "httpRoute" _ hA (by decide)

theorem nodupKeys_stepHttpRoute (s : Obj) (hN : NodupKeys s) :
    NodupKeys (stepHttpRoute s) := by
  unfold stepHttpRoute
  repeat' split
  all_goals first
  | exact hN
  | exact nodupKeys_dictSet s "httpRoute" _ hN

theorem allowedKeys_stepHubHttpRoute (s : Obj) (hA : AllowedKeys s) :
    AllowedKeys (stepHubHttpRoute s) := by
  unfold stepHubHttpRoute
  repeat' split
  all_goals first
  | exact hA
  | exact allowedKeys_dictSet s "hub" _ hA (by decide)

theorem nodupKeys_stepHubHttpRoute (s : Obj) (hN : NodupKeys s) :
    NodupKeys (stepHubHttpRoute s) := by
  unfold stepHubHttpRoute
  repeat' split
  all_goals first
  | exact hN
  | exact nodupKeys_dictSet s "hub" _ hN

theorem allowedKeys_stepSingleuser (cs : ClusterState) (s t : Obj) (hA : AllowedKeys s)
    (h : stepSingleuser cs s = .ok t) : AllowedKeys t := by
  rw [stepSingleuser_eq_of_allowed cs s hA] at h
  split at h
  · split at h
    · exact absurd h (by simp)
    · injection h with h
      rw [← h]
      exact allowedKeys_dictSet s "singleuser" _ hA (by decide)
  · injection h with h
    rw [← h]
    exact hA

theorem nodupKeys_stepSingleuser (cs : ClusterState) (s t : Obj) (hA : AllowedKeys s)
    (hN : NodupKeys s) (h : stepSingleuser cs s = .ok t) : NodupKeys t := by
  rw [stepSingleuser_eq_of_allowed cs s hA] at h
  split at h
  · split at h
    · exact absurd h (by simp)
    · injection h with h
      rw [← h]
      exact nodupKeys_dictSet s "singleuser" _ hN
  · injection h with h
    rw [← h]
    exact hN

theorem rbacClean_of_getKey_eq (t u : Obj) (h : getKey t "rbac" = getKey u "rbac")
    (hC : RbacClean u) : RbacClean t := by
  intro rbac hr
  exact hC rbac (h ▸ hr)

theorem suClean_of_getKey_eq (cs : ClusterState) (t u : Obj)
    (h : getKey t "singleuser" = getKey u "singleuser") (hC : SuClean cs u) : SuClean cs t := by
  intro su hsu
  exact hC su (h ▸ hsu)

theorem httpClean_of_getKey_eq (t u : Obj)
    (h : getKey t "httpRoute" = getKey u "httpRoute") (hC : HttpClean u) : HttpClean t := by
  intro hr hh
  exact hC hr (h ▸ hh)

/-- A successful sanitizer output is a fixed point of the sanitizer (under
the same cluster state). -/
theorem sanitize_ok_fixpoint (cs : ClusterState) (x y : Obj)
    (h : sanitize cs x = .ok y) : sanitize cs y = .ok y := by
  unfold sanitize at h ⊢
  dsimp only at h ⊢
  have hA1 : AllowedKeys (stepAllow x) := allowedKeys_stepAllow x
  have hN1 : NodupKeys (stepAllow x) := nodupKeys_stepAllow x
  rw [getKey_stepNamespace_of_allowed (stepAllow x) hA1] at h
  have hA2 : AllowedKeys (stepRbac (stepAllow x)) := allowedKeys_stepRbac _ hA1
  have hN2 : NodupKeys (stepRbac (stepAllow x)) := nodupKeys_stepRbac _ hN1
  split at h
  · exact absurd h (by simp)
  · rename_i s3 hss
    injection h with h
    -- name the tail of the first pass
    have hA3 : AllowedKeys s3 := allowedKeys_stepSingleuser cs _ s3 hA2 hss
    have hN3 : NodupKeys s3 := nodupKeys_stepSingleuser cs _ s3 hA2 hN2 hss
    have hA4 : AllowedKeys (stepHttpRoute s3) := allowedKeys_stepHttpRoute s3 hA3
    have hN4 : NodupKeys (stepHttpRoute s3) := nodupKeys_stepHttpRoute s3 hN3
    have hAy : AllowedKeys y := h ▸ allowedKeys_stepHubHttpRoute _ hA4
    have hNy : NodupKeys y := h ▸ nodupKeys_stepHubHttpRoute _ hN4
    -- transport each per-key fixed-point fact to y
    have hyHub : getKey y "singleuser" = getKey (stepHttpRoute s3) "singleuser" := by
      rw [← h]
      exact getKey_stepHubHttpRoute_ne _ _ (by decide)
    have hyHub' : getKey y "httpRoute" = getKey (stepHttpRoute s3) "httpRoute" := by
      rw [← h]
      exact getKey_stepHubHttpRoute_ne _ _ (by decide)
    have hyHub'' : getKey y "rbac" = getKey (stepHttpRoute s3) "rbac" := by
      rw [← h]
      exact getKey_stepHubHttpRoute_ne _ _ (by decide)
    have hRbacY : RbacClean y := by
      refine rbacClean_of_getKey_eq y (stepRbac (stepAllow x)) ?_ (stepRbac_clean _)
      rw [hyHub'', getKey_stepHttpRoute_ne _ _ (by decide)]
      exact getKey_stepSingleuser_ne cs _ s3 _ hA2 hss (by decide)
    have hSuY : SuClean cs y := by
      refine suClean_of_getKey_eq cs y s3 ?_ (stepSingleuser_clean cs _ s3 hA2 hss)
      rw [hyHub]
      exact getKey_stepHttpRoute_ne _ _ (by decide)
    have hHttpY : HttpClean y := by
      refine httpClean_of_getKey_eq y (stepHttpRoute s3) hyHub' ?_
      exact stepHttpRoute_clean s3
    have hHubY : HubClean y := h ▸ stepHubHttpRoute_clean (stepHttpRoute s3)
    -- the second pass is the identity, step by step
    rw [stepAllow_fix y hAy hNy,
        getKey_stepNamespace_of_allowed y hAy,
        stepRbac_id y hRbacY,
        stepSingleuser_id cs y hAy hSuY]
    show Except.ok (stepHubHttpRoute (stepHttpRoute y)) = Except.ok y
    rw [stepHttpRoute_id y hHttpY, stepHubHttpRoute_id y hHubY]

/-- Every successful sanitizer output has only whitelisted top-level keys. -/
theorem sanitize_ok_allowedKeys (cs : ClusterState) (x y : Obj)
    (h : sanitize cs x = .ok y) : AllowedKeys y := by
  unfold sanitize at h
  dsimp only at h
  have hA1 : AllowedKeys (stepAllow x) := allowedKeys_stepAllow x
  have hA1' : AllowedKeys (stepNamespace (stepAllow x)) := by
    unfold stepNamespace
    split
    · exact allowedKeys_eraseKey _ _ hA1
    · exact hA1
  have hA2 : AllowedKeys (stepRbac (stepNamespace (stepAllow x))) :=
    allowedKeys_stepRbac _ hA1'
  split at h
  · exact absurd h (by simp)
  · rename_i s3 hss
    injection h with h
    exact h ▸ allowedKeys_stepHubHttpRoute _
      (allowedKeys_stepHttpRoute _ (allowedKeys_stepSingleuser cs _ _ hA2 hss))

/-- Without a `singleuser` section the sanitizer neither consults the
cluster nor can raise. -/
theorem sanitize_no_singleuser (cs cs' : ClusterState) (x : Obj)
    (hx : getKey x "singleuser" = none) :
    sanitize cs x = sanitize cs' x ∧ (sanitize cs x).isOk = true := by
  have h1 : getKey (stepAllow x) "singleuser" = none := by
    cases hc : getKey (stepAllow x) "singleuser" with
    | none => rfl
    | some v =>
      have hmem := mem_stepAllow x _ (getKey_mem _ _ _ hc)
      exact absurd hx (getKey_ne_none_of_mem x "singleuser" v hmem)
  have h2 : getKey (stepNamespace (stepAllow x)) "singleuser" = none := by
    unfold stepNamespace
    split
    · rw [getKey_eraseKey_ne _ _ _ (by decide)]
      exact h1
    · exact h1
  have h3 : getKey (stepRbac (stepNamespace (stepAllow x))) "singleuser" = none := by
    rw [getKey_stepRbac_ne _ _ (by decide)]
    exact h2
  have hss : ∀ c : ClusterState,
      stepSingleuser c (stepRbac (stepNamespace (stepAllow x))) =
        .ok (stepRbac (stepNamespace (stepAllow x))) := by
    intro c
    unfold stepSingleuser
    rw [h3]
  refine ⟨?_, ?_⟩
  · unfold sanitize
    dsimp only
    rw [hss cs, hss cs']
  · unfold sanitize
    dsimp only
    rw [hss cs]
    rfl

/-- The namespace validity check agrees with the spec predicate on every
nonempty string. -/
theorem isValidNamespaceName_spec (s : String) (h : s ≠ "") :
    isValidNamespaceName s = .ok (namespaceValidSpec s) := by
  have hd : s.data ≠ [] := fun hh => h (congrArg String.mk hh)
  cases hds : s.data with
  | nil => exact absurd hds hd
  | cons c rest =>
    unfold isValidNamespaceName namespaceValidSpec
    rw [hds]
    dsimp only
    by_cases hlen : (c :: rest).length > 63
    · rw [if_pos hlen, decide_eq_false (by omega : ¬((c :: rest).length ≤ 63))]
      simp
    · rw [if_neg hlen, decide_eq_true (by omega : (c :: rest).length ≤ 63)]
      by_cases hfirst : pyIsAlnum c
      · by_cases hlast : pyIsAlnum (rest.getLastD c)
        · rw [if_neg (by simp [hfirst, hlast, -List.getLastD_eq_getLast?])]
          simp [hfirst, hlast, -List.getLastD_eq_getLast?]
        · rw [if_pos (by simp [hlast, -List.getLastD_eq_getLast?])]
          simp only [Bool.not_eq_true] at hlast
          simp [hlast, -List.getLastD_eq_getLast?]
      · rw [if_pos (by simp [hfirst, -List.getLastD_eq_getLast?])]
        simp only [Bool.not_eq_true] at hfirst
        simp [hfirst, -List.getLastD_eq_getLast?]

/-- The hub record returned by a successful `create_hub` carries the
namespace computed from the configured namespace prfx and the hub name. -/
theorem createHub_namespace_eq (pfx chart : String) (st : AppState) (name owner : String)
    (values : Option Obj) (description : String) (st' : AppState) (rec : HubRecord)
    (h : createHub pfx chart st name owner values description = .ok (st', rec)) :
    rec.nsName = pfx ++ name := by
  unfold createHub at h
  dsimp only at h
  split at h
  · exact absurd h (by simp)
  · exact absurd h (by simp)
  · split at h
    · exact absurd h (by simp)
    · split at h
      · split at h
        · exact absurd h (by simp)
        · split at h
          · exact absurd h (by simp)
          · injection h with h
            exact (congrArg (fun p => p.2.nsName) h).symm
      · injection h with h
        exact (congrArg (fun p => p.2.nsName) h).symm

/-! ## Claim theorems -/

/-- C1: `create_hub` (`app.py:240-253`) persists the caller-supplied `values`
tree verbatim — `_validate_helm_values` is not applied before storage, so the
store holds a hub whose `values` carry a key outside the whitelist, a tree no
sanitizer run can produce (for any cluster state, sanitizing it changes it).
This contradicts `orm.py:25` ("sanitized before storage") and the stored-at-
rest invariant of the spec; sanitization only happens later, inside `start`. -/
theorem createHub_persists_unsanitized_values :
    (createHub "jupyterhub-" "jupyterhub/jupyterhub" ⟨[], []⟩ "h1" "alice"
        (some [("forbidden", .num 1)]) "").toOption.map (fun p => p.2.values) =
      some [("forbidden", .num 1)] ∧
    (createHub "jupyterhub-" "jupyterhub/jupyterhub" ⟨[], []⟩ "h1" "alice"
        (some [("forbidden", .num 1)]) "").toOption.map
          (fun p => p.1.hubs.map HubRecord.values) =
      some [[("forbidden", .num 1)]] ∧
    ∀ cs : ClusterState,
      sanitize cs [("forbidden", .num 1)] ≠ .ok [("forbidden", .num 1)] := by
  refine ⟨rfl, rfl, ?_⟩
  intro cs h
  rw [(rfl : sanitize cs [("forbidden", .num 1)] = .ok [])] at h
  injection h with h
  exact List.noConfusion h

/-- External outcomes for the C2 scenario: the helm subprocess exits 1 with
stderr "Error: chart not found"; everything before it succeeds. -/
def c2Env : StartEnv :=
  { cs := ⟨[], []⟩, allowNamespaceCreation := true, nsRead := .ok ⟨some []⟩,
    helmExit := 1, helmStdout := "", helmStderr := "Error: chart not found",
    readyUrl := "http://unused", now := 0, tracebackText := "traceback" }

/-- In-memory hub for the C2 scenario. -/
def c2Mem : HubMem :=
  { name := "h1", nsName := "jupyterhub-h1", owner := "alice",
    helmReleaseName := "jupyterhub-h1", helmChart := "jupyterhub/jupyterhub",
    values := [], status := "pending", url := "", lastActivity := none,
    description := "", errorMessage := "" }

/-- Persisted hub record for the C2 scenario. -/
def c2Rec : HubRecord :=
  { name := "h1", nsName := "jupyterhub-h1", owner := "alice",
    helmReleaseName := "jupyterhub-h1", helmChart := "jupyterhub/jupyterhub",
    values := [], status := "pending" }

/-- C2: when the deploy subprocess exits non-zero with stderr "chart not
found", `start` re-raises, persists status `error` and appends exactly one
`error` HubEvent whose message carries the stderr text — but the stderr text
reaches only the *in-memory* `error_message` attribute: `orm.Hub` defines no
`error_message` column, and `hub.py`'s writes are guarded by
`hasattr(self.orm_hub, "error_message")`, which is false, so no
`error_message` is persisted (the persisted record has no such field). -/
theorem start_deploy_failure_behavior :
    (hubStart c2Env c2Mem c2Rec none).1 =
      .error "Helm deployment failed: Error: chart not found" ∧
    (hubStart c2Env c2Mem c2Rec none).2.2.status = "error" ∧
    (hubStart c2Env c2Mem c2Rec none).2.2.events =
      [{ eventType := "error",
         message := "start: Helm deployment failed: Error: chart not found" ++
           "\n\nTraceback:\ntraceback",
         timestamp := 0 }] ∧
    (hubStart c2Env c2Mem c2Rec none).2.1.errorMessage =
      "[start] Helm deployment failed: Error: chart not found" ++
        "\n\nTraceback:\ntraceback" :=
  ⟨rfl, rfl, rfl, rfl⟩

/-- C3 counterexample: the sanitizer's output depends on live cluster state
(the same tree sanitizes differently depending on whether storage class
`fast` exists), and it can raise `TypeError` on a well-formed tree (a
numeric `extraNodeAffinity.required`). -/
theorem sanitize_cluster_dependent_and_can_raise :
    sanitize ⟨["fast"], []⟩
        [("singleuser", .obj [("storage", .obj [("dynamic",
          .obj [("storageClass", .str "fast")])])])] ≠
      sanitize ⟨[], []⟩
        [("singleuser", .obj [("storage", .obj [("dynamic",
          .obj [("storageClass", .str "fast")])])])] ∧
    (sanitize ⟨[], []⟩
      [("singleuser", .obj [("extraNodeAffinity",
        .obj [("required", .num 1)])])]).isOk = false := by
  refine ⟨?_, rfl⟩
  intro h
  rw [(rfl : sanitize ⟨["fast"], []⟩
        [("singleuser", .obj [("storage", .obj [("dynamic",
          .obj [("storageClass", .str "fast")])])])] =
      .ok [("singleuser", .obj [("storage", .obj [("dynamic",
        .obj [("storageClass", .str "fast")])])])]),
      (rfl : sanitize ⟨[], []⟩
        [("singleuser", .obj [("storage", .obj [("dynamic",
          .obj [("storageClass", .str "fast")])])])] =
      .ok [("singleuser", .obj [("storage", .obj [("dynamic",
        .obj [("storageClass", .str "standard")])])])])] at h
  injection h with h
  have h4 : some (JValue.str "fast") = some (JValue.str "standard") :=
    congrArg (fun o => getPath o ["singleuser", "storage", "dynamic", "storageClass"]) h
  injection h4 with h4
  injection h4 with h4
  exact absurd h4 (by decide)

/-- C3 (amended): the sanitizer is a deterministic function of the input
*and* the cluster state; its only cluster dependence and its only crash
points sit inside the `singleuser` section, so on a tree without a
top-level `singleuser` key it is cluster-independent and returns normally. -/
theorem sanitize_deterministic_without_singleuser (cs cs' : ClusterState) (x : Obj)
    (hx : getKey x "singleuser" = none) :
    sanitize cs x = sanitize cs' x ∧ (sanitize cs x).isOk = true :=
  sanitize_no_singleuser cs cs' x hx

theorem sanitize_deterministic_without_singleuser_witness :
    sanitize ⟨["fast"], []⟩ [("hub", .obj []), ("foo", .num 7)] =
      sanitize ⟨[], [[("disk", "ssd")]]⟩ [("hub", .obj []), ("foo", .num 7)] ∧
    (sanitize ⟨["fast"], []⟩ [("hub", .obj []), ("foo", .num 7)]).isOk = true :=
  sanitize_deterministic_without_singleuser ⟨["fast"], []⟩ ⟨[], [[("disk", "ssd")]]⟩
    [("hub", .obj []), ("foo", .num 7)] rfl

/-- C4 counterexample: only the *top-level* `namespace` key is stripped; a
`namespace` key nested below a whitelisted section (`hub`) survives
sanitization, so the output does contain a `namespace` key at a deeper
nesting level. -/
theorem sanitize_retains_nested_namespace :
    sanitize ⟨[], []⟩ [("hub", .obj [("namespace", .str "evil")])] =
      .ok [("hub", .obj [("namespace", .str "evil")])] ∧
    hasKeyDeep (.obj [("hub", .obj [("namespace", .str "evil")])]) "namespace" = true :=
  ⟨rfl, rfl⟩

/-- C4 (amended): every successful sanitizer output is free of a *top-level*
`namespace` key (the whitelist drops it, no rule reintroduces it); nested
`namespace` keys are not touched. -/
theorem sanitize_no_toplevel_namespace (cs : ClusterState) (x y : Obj)
    (h : sanitize cs x = .ok y) : getKey y "namespace" = none :=
  allowed_getKey_none y "namespace" (sanitize_ok_allowedKeys cs x y h) (by decide)

theorem sanitize_no_toplevel_namespace_witness :
    getKey ([] : Obj) "namespace" = none :=
  sanitize_no_toplevel_namespace ⟨[], []⟩ [("namespace", .str "smuggled")] [] rfl

/-- C5: the sanitizer is idempotent — under a fixed cluster state, a
successful output is a fixed point: sanitizing it again returns it
unchanged. -/
theorem sanitize_idempotent (cs : ClusterState) (x y : Obj)
    (h : sanitize cs x = .ok y) : sanitize cs y = .ok y :=
  sanitize_ok_fixpoint cs x y h

theorem sanitize_idempotent_witness :
    sanitize ⟨[], []⟩ [("rbac", .obj [("enabled", .bool true)])] =
      .ok [("rbac", .obj [("enabled", .bool true)])] :=
  sanitize_idempotent ⟨[], []⟩
    [("rbac", .obj [("clusterRoleBindings", .arr [.str "hack"]), ("enabled", .bool true)])]
    [("rbac", .obj [("enabled", .bool true)])] rfl

/-- C6 counterexample: `_is_valid_namespace_name` does not reject the empty
string — `name[0]` raises `IndexError` instead of returning `False`. -/
theorem isValidNamespaceName_crashes_on_empty :
    isValidNamespaceName "" = .error "IndexError: string index out of range" := rfl

/-- C6 (amended): the namespace persisted by `create_hub` is exactly the
configured namespace prfx concatenated with the hub name, and on every
*nonempty* string the validity check returns exactly the spec predicate
(length ≤ 63, alphanumeric first and last character, all characters
alphanumeric or `-`); on the empty string it raises `IndexError` instead of
rejecting. -/
theorem createHub_namespace_and_validator :
    (∀ (pfx chart : String) (st : AppState) (name owner : String)
        (values : Option Obj) (description : String) (st' : AppState) (rec : HubRecord),
      createHub pfx chart st name owner values description = .ok (st', rec) →
      rec.nsName = pfx ++ name) ∧
    (∀ s : String, s ≠ "" → isValidNamespaceName s = .ok (namespaceValidSpec s)) ∧
    isValidNamespaceName "" = .error "IndexError: string index out of range" :=
  ⟨createHub_namespace_eq, isValidNamespaceName_spec, rfl⟩

/-- Record produced by `create_hub "hub-" … "team-a"`. -/
def hubRecC6 : HubRecord :=
  { name := "team-a", nsName := "hub-team-a", owner := "alice",
    helmReleaseName := "jupyterhub-team-a", helmChart := "c",
    values := [], description := "", status := "pending" }

theorem createHub_namespace_and_validator_witness :
    hubRecC6.nsName = "hub-" ++ "team-a" ∧
    isValidNamespaceName "hub-team-a" = .ok (namespaceValidSpec "hub-team-a") :=
  ⟨createHub_namespace_and_validator.1 "hub-" "c" ⟨[], []⟩ "team-a" "alice" none ""
      ⟨[hubRecC6], []⟩ hubRecC6 rfl,
   createHub_namespace_and_validator.2.1 "hub-team-a" (by decide)⟩

/-- C7 counterexample: with `max_hubs = 0` the quota is *not* enforced —
`user.max_hubs and …` is falsy for 0, so `create_hub` succeeds although the
owner's hub count (0) is ≥ `max_hubs` (0). -/
theorem createHub_allows_max_hubs_zero :
    (createHub "hub-" "c" ⟨[], [{ name := "alice", maxHubs := some 0 }]⟩
      "h1" "alice" none "").isOk = true := rfl

/-- C7 (amended): `create_hub` raises a `ValueError` before touching the
store when the computed namespace already belongs to another hub, and when
the owner's `User` row sets a *nonzero* `max_hubs` with the owner's hub
count ≥ `max_hubs`; `max_hubs = 0` (like `max_hubs` unset) disables the
quota entirely.  Both failures are returned before the record is created, so
the store is unchanged by construction. -/
theorem createHub_validation_errors :
    (∀ (pfx chart : String) (st : AppState) (name owner : String)
        (values : Option Obj) (description : String),
      isValidNamespaceName (pfx ++ name) = .ok true →
      st.hubs.any (fun h => h.nsName == pfx ++ name) = true →
      createHub pfx chart st name owner values description = .error .namespaceInUse) ∧
    (∀ (pfx chart : String) (st : AppState) (name owner : String)
        (values : Option Obj) (description : String) (u : UserRec) (m : Int),
      isValidNamespaceName (pfx ++ name) = .ok true →
      st.hubs.any (fun h => h.nsName == pfx ++ name) = false →
      st.users.find? (fun u' => u'.name == owner) = some u →
      u.maxHubs = some m → m ≠ 0 →
      m ≤ ((st.hubs.filter (fun h => h.owner == owner)).length : Int) →
      createHub pfx chart st name owner values description = .error .hubLimitReached) := by
  constructor
  · intro pfx chart st name owner values description hvalid hin
    unfold createHub
    dsimp only
    rw [hvalid]
    dsimp only
    rw [if_pos hin]
  · intro pfx chart st name owner values description u m hvalid hnotin hfind hmax hm0 hlen
    unfold createHub
    dsimp only
    rw [hvalid]
    dsimp only
    rw [if_neg (by simp [hnotin]), hfind]
    dsimp only
    rw [if_pos (by
      rw [hmax]
      dsimp only
      rw [decide_eq_true hm0, decide_eq_true (hlen : ((st.hubs.filter
        (fun h => h.owner == owner)).length : Int) ≥ m)]
      rfl)]

theorem createHub_validation_errors_witness :
    createHub "hub-" "c" ⟨[hubRecC6], []⟩ "team-a" "bob" none "" =
      .error .namespaceInUse ∧
    createHub "hub-" "c" ⟨[hubRecC6], [{ name := "alice", maxHubs := some 1 }]⟩
      "h2" "alice" none "" = .error .hubLimitReached :=
  ⟨createHub_validation_errors.1 "hub-" "c" ⟨[hubRecC6], []⟩ "team-a" "bob" none ""
      rfl rfl,
   createHub_validation_errors.2 "hub-" "c"
      ⟨[hubRecC6], [{ name := "alice", maxHubs := some 1 }]⟩ "h2" "alice" none ""
      { name := "alice", maxHubs := some 1 } 1 rfl rfl rfl rfl (by decide) (by decide)⟩

/-- C8: with namespace creation enabled, `_ensure_namespace` patches the
ownership labels additively into an existing namespace only when the
namespace already carries a label map; when `metadata.labels` is `None` (a
namespace created without labels), `ns.metadata.labels.update(...)` raises
`AttributeError` instead of succeeding.  The second conjunct shows the
additive patch (the unrelated label survives); the third shows the
disabled-creation remediation error on an absent namespace. -/
theorem ensureNamespace_nil_labels_crash :
    ensureNamespace true "h1" "alice" "jupyterhub-h1" (.ok ⟨none⟩) =
      .error "AttributeError: NoneType object has no attribute update" ∧
    ensureNamespace true "h1" "alice" "jupyterhub-h1" (.ok ⟨some [("team", "x")]⟩) =
      .ok ⟨some [("team", "x"), ("jupytercluster.io/managed", "true"),
        ("jupytercluster.io/hub", "h1"), ("jupytercluster.io/owner", "alice")]⟩ ∧
    ensureNamespace false "h1" "alice" "jupyterhub-h1" (.apiErr 404) =
      .error ("Namespace jupyterhub-h1 does not exist and namespace creation is " ++
        "disabled. Please create the namespace manually or enable namespace " ++
        "creation in JupyterCluster configuration.") :=
  ⟨rfl, rfl, rfl⟩

/-- An API call outcome that is not a successful response. -/
def apiFailed {α : Type} : ApiResult α → Bool
  | .ok _ => false
  | _ => true

/-- C9: `poll` never raises — for every combination of cluster responses it
returns a classification (`none` = Running, `some 1` = Stopped), any API
error degrades to Stopped, and the persisted hub record is returned
untouched. -/
theorem poll_never_raises_read_only (rec : HubRecord) (env : PollEnv) :
    (hubPoll rec env).2 = rec ∧
    ((hubPoll rec env).1 = none ∨ (hubPoll rec env).1 = some 1) ∧
    ((apiFailed env.nsRead || apiFailed env.podList) = true →
      (hubPoll rec env).1 = some 1) := by
  refine ⟨rfl, ?_, ?_⟩
  · show spawnerPoll env = none ∨ spawnerPoll env = some 1
    unfold spawnerPoll
    repeat' split
    all_goals first
    | exact Or.inl rfl
    | exact Or.inr rfl
  · intro herr
    show spawnerPoll env = some 1
    unfold spawnerPoll
    repeat' split
    all_goals first
    | rfl
    | simp_all [apiFailed]

theorem poll_never_raises_read_only_witness :
    (hubPoll c2Rec ⟨.exc, .ok []⟩).1 = some 1 :=
  (poll_never_raises_read_only c2Rec ⟨.exc, .ok []⟩).2.2 rfl

/-- C10: when the owner has no `User` row, neither the quota nor the
namespace-prfx policy applies: `create_hub` can only fail for namespace
reasons, and succeeds whenever the namespace is valid and unused — however
many hubs the owner already has. -/
theorem createHub_no_policy_without_user (pfx chart : String) (st : AppState)
    (name owner : String) (values : Option Obj) (description : String)
    (hu : st.users.find? (fun u => u.name == owner) = none) :
    createHub pfx chart st name owner values description ≠ .error .hubLimitReached ∧
    createHub pfx chart st name owner values description ≠ .error .namespacePfxDenied ∧
    (isValidNamespaceName (pfx ++ name) = .ok true →
     st.hubs.any (fun h => h.nsName == pfx ++ name) = false →
     (createHub pfx chart st name owner values description).isOk = true) := by
  unfold createHub
  dsimp only
  split
  · rename_i heq
    refine ⟨by simp, by simp, ?_⟩
    intro hval _
    rw [heq] at hval
    exact absurd hval (by simp)
  · rename_i heq
    refine ⟨by simp, by simp, ?_⟩
    intro hval _
    rw [heq] at hval
    injection hval
  · split
    · rename_i hin
      refine ⟨by simp, by simp, ?_⟩
      intro _ hnotin
      rw [hnotin] at hin
      exact absurd hin (by simp)
    · rw [hu]
      exact ⟨by simp, by simp, fun _ _ => rfl⟩

theorem createHub_no_policy_without_user_witness :
    (createHub "hub-" "c"
      ⟨[{ name := "h1", nsName := "hub-h1", owner := "ghost",
          helmReleaseName := "jupyterhub-h1", helmChart := "c" },
        { name := "h2", nsName := "hub-h2", owner := "ghost",
          helmReleaseName := "jupyterhub-h2", helmChart := "c" }], []⟩
      "h3" "ghost" none "").isOk = true :=
  (createHub_no_policy_without_user "hub-" "c"
    ⟨[{ name := "h1", nsName := "hub-h1", owner := "ghost",
        helmReleaseName := "jupyterhub-h1", helmChart := "c" },
      { name := "h2", nsName := "hub-h2", owner := "ghost",
        helmReleaseName := "jupyterhub-h2", helmChart := "c" }], []⟩
    "h3" "ghost" none "" rfl).2.2 rfl rfl

end JupyterCluster
